import Mathlib

/-!
Shallow embedding of the Podcast Explorer catalog query engine and its view
components, together with theorems checking the repository's specification
against the code.

Sources embedded:
* `src/context/PodcastContext.jsx` (`PodcastProvider`, `SORT_OPTIONS`,
  `calculatePageSize`, `applyFilters`, the derived view): the catalog query
  engine holding the dataset and the query parameters, and deriving the
  filtered/sorted/paginated view.
* `src/components/UI/GenreTags.jsx` (`GenreTags`): genre id → label lookup.
* `src/components/pages/PodcastDetail.jsx` (`PodcastDetail`): the season
  selection logic of the show-detail view.

Modelling conventions:
* JavaScript strings are Lean `String`s; the JS string methods used by the
  code (`trim`, `toLowerCase`, `includes`, `localeCompare`) are modelled as
  executable functions on the underlying character list (`String.data`) so
  that concrete instances reduce inside the kernel.
* The `updated` field is an ISO date string in the source; the code only ever
  uses it through `new Date(x.updated)` subtraction, so it is embedded as the
  resulting epoch-milliseconds integer.
* `Array.prototype.sort` with a comparator `comp` is stable (ECMAScript 2019);
  it is modelled by insertion sort with the total preorder
  `a ≼ b ↔ comp a b ≤ 0`, which is the unique stable sort for `comp`.
* React state (`useState`/`useEffect`) is modelled by an explicit state
  record `EngineState` and explicit state-transition functions. The
  `useEffect(() => setPage(1), [search, sortKey, genre])` reset is folded
  into the corresponding setters; the resize listener only recomputes the
  page size.
-/

/-- A catalog entry, from the `Podcast` typedef of `PodcastContext.jsx`:
identifier, title, image URI, last-updated timestamp (epoch milliseconds of
the ISO `updated` string), genre ids, and season count. -/
structure PodShow where
  id : Int
  title : String
  image : String
  updated : Int
  genres : List Int
  seasons : Nat
deriving DecidableEq

/-- A static genre table entry (`{ id, title }`) as used by `GenreTags.jsx`. -/
structure Genre where
  id : Int
  title : String
deriving DecidableEq

/-- An episode of a season (`{ title, description }`), from
`PodcastDetail.jsx`. -/
structure Episode where
  title : String
  description : String
deriving DecidableEq

/-- A season of a show detail (`{ title, description, image, episodes }`),
from `PodcastDetail.jsx`. -/
structure Season where
  title : String
  description : String
  image : String
  episodes : List Episode
deriving DecidableEq

/-- Model of `String.prototype.trim`: drop whitespace from both ends. -/
def jsTrim (s : String) : String :=
  String.mk (((s.data.dropWhile Char.isWhitespace).reverse.dropWhile
    Char.isWhitespace).reverse)

/-- Model of `String.prototype.toLowerCase`: lower-case every character. -/
def jsToLower (s : String) : String :=
  String.mk (s.data.map Char.toLower)

/-- Model of `t.includes(q)`: `q` occurs contiguously inside `t`. -/
def jsIncludes (t q : String) : Bool :=
  decide (q.data <:+: t.data)

/-- Model of `a.localeCompare(b)`: a total three-way string comparison,
negative when `a` precedes `b`, zero on equality, positive otherwise. -/
def strCompare (a b : String) : Int :=
  if a.data < b.data then -1 else if b.data < a.data then 1 else 0

/-- Model of `p.genres.includes(Number(genre))` from `applyFilters`: the
genre filter value is a string; `Number` parses it (a non-numeric string
gives `NaN`, which `includes` never matches, modelled by `none`). -/
def jsGenreMatches (genre : String) (gs : List Int) : Bool :=
  match genre.toInt? with
  | some n => gs.contains n
  | none => false

/-- Model of stable `Array.prototype.sort(comp)`: insertion sort with the
total preorder `a ≼ b ↔ comp a b ≤ 0`. A stable sort keeps elements that
compare equal in their original relative order, and insertion sort with this
preorder is exactly that sort. -/
def jsSort (comp : α → α → Int) (l : List α) : List α :=
  List.insertionSort (fun a b => comp a b ≤ 0) l

/-- The `title-asc` comparator `(a, b) => a.title.localeCompare(b.title)`. -/
def titleAscComp (a b : PodShow) : Int := strCompare a.title b.title

/-- The `title-desc` comparator `(a, b) => b.title.localeCompare(a.title)`. -/
def titleDescComp (a b : PodShow) : Int := strCompare b.title a.title

/-- The `date-asc` comparator
`(a, b) => new Date(a.updated) - new Date(b.updated)`. -/
def dateAscComp (a b : PodShow) : Int := a.updated - b.updated

/-- The `date-desc` comparator
`(a, b) => new Date(b.updated) - new Date(a.updated)`. -/
def dateDescComp (a b : PodShow) : Int := b.updated - a.updated

/-- The state owned by `PodcastProvider`: the full dataset and the query
parameters, each one a `useState` hook in the source. The requested page is
an integer because `setPage` accepts any number and the provider clamps only
while deriving the view. -/
structure EngineState where
  allPodcasts : List PodShow
  search : String
  sortKey : String
  genre : String
  page : Int
  pageSize : Nat
deriving DecidableEq

/-- The initial `useState` values of `PodcastProvider`:
`[]`, `""`, `"date-desc"`, `"all"`, `1`, `10`. -/
def initialEngine : EngineState :=
  { allPodcasts := []
    search := ""
    sortKey := "date-desc"
    genre := "all"
    page := 1
    pageSize := 10 }

/-- `setAllPodcasts` as invoked by the fetch effect: replaces the dataset and
nothing else. -/
def setDataset (shows : List PodShow) (st : EngineState) : EngineState :=
  { st with allPodcasts := shows }

/-- `setSearch`, together with the `useEffect(() => setPage(1),
[search, sortKey, genre])` reset that a search change triggers. -/
def setSearch (text : String) (st : EngineState) : EngineState :=
  { st with search := text, page := 1 }

/-- `setSortKey`, together with the page reset its change triggers. -/
def setSortKey (key : String) (st : EngineState) : EngineState :=
  { st with sortKey := key, page := 1 }

/-- `setGenre`, together with the page reset its change triggers. -/
def setGenre (g : String) (st : EngineState) : EngineState :=
  { st with genre := g, page := 1 }

/-- `setPage(n)`: stores the requested page verbatim; no validation or
clamping happens here. -/
def setPage (n : Int) (st : EngineState) : EngineState :=
  { st with page := n }

/-- `calculatePageSize` from the resize effect of `PodcastProvider`: width at
most `1024` gives `10`; otherwise `columns = Math.floor(screenW / cardWidth)`
with `cardWidth = 260`, times `maxRows = 2`. -/
def calculatePageSize (screenW : Nat) : Nat :=
  if screenW ≤ 1024 then 10
  else
    let cardWidth := 260
    let maxRows := 2
    let columns := screenW / cardWidth
    columns * maxRows

/-- The resize listener: recomputes the page size from the viewport width and
touches no other parameter. -/
def handleResize (screenW : Nat) (st : EngineState) : EngineState :=
  { st with pageSize := calculatePageSize screenW }

/-- The search step of `applyFilters`: when `search.trim()` is truthy
(non-empty), keep the shows whose lower-cased title includes the lower-cased
(untrimmed) search text. -/
def searchFilter (search : String) (data : List PodShow) : List PodShow :=
  if jsTrim search ≠ "" then
    data.filter (fun p => jsIncludes (jsToLower p.title) (jsToLower search))
  else data

/-- The genre step of `applyFilters`: when the genre filter is not `"all"`,
keep the shows whose genre list contains the numeric genre value. -/
def genreFilter (genre : String) (data : List PodShow) : List PodShow :=
  if genre ≠ "all" then data.filter (fun p => jsGenreMatches genre p.genres)
  else data

/-- The sort step of `applyFilters`: dispatch on the sort key; `"default"`
and unknown keys leave the order unchanged. -/
def sortStep (sortKey : String) (data : List PodShow) : List PodShow :=
  match sortKey with
  | "title-asc" => jsSort titleAscComp data
  | "title-desc" => jsSort titleDescComp data
  | "date-asc" => jsSort dateAscComp data
  | "date-desc" => jsSort dateDescComp data
  | _ => data

/-- `applyFilters` of `PodcastProvider`: shallow copy of the dataset, search
filter, genre filter, then sort. -/
def applyFilters (st : EngineState) : List PodShow :=
  sortStep st.sortKey (genreFilter st.genre (searchFilter st.search st.allPodcasts))

/-- `Math.max(1, Math.ceil(filtered.length / pageSize))`. Both arguments are
non-negative, so `Math.ceil` is the natural-valued ceiling of the exact
(rational) quotient. The model assumes a positive page size, as guaranteed by
`calculatePageSize` (a zero page size would give `Infinity` in JS). -/
def totalPages (filteredLength pageSize : Nat) : Nat :=
  max 1 (Nat.ceil ((filteredLength : ℚ) / (pageSize : ℚ)))

/-- Model of `Array.prototype.slice(start, stop)`: negative indices count
from the end, indices are clamped to `[0, length]`, and the elements in
`[start, stop)` are returned. -/
def jsSlice (l : List α) (start stop : Int) : List α :=
  let len : Int := l.length
  let s := (if start < 0 then max (len + start) 0 else min start len).toNat
  let e := (if stop < 0 then max (len + stop) 0 else min stop len).toNat
  (l.take e).drop s

/-- The derived view exposed through the context `value`: the page slice, the
clamped current page, the page count, and the filtered count. -/
structure View where
  podcasts : List PodShow
  totalPages : Nat
  currentPage : Int
  allPodcastsCount : Nat
deriving DecidableEq

/-- The derivation block of `PodcastProvider`:
`filtered = applyFilters()`,
`totalPages = Math.max(1, Math.ceil(filtered.length / pageSize))`,
`currentPage = Math.min(page, totalPages)`,
`paged = filtered.slice((currentPage - 1) * pageSize, currentPage * pageSize)`. -/
def deriveView (st : EngineState) : View :=
  let filtered := applyFilters st
  let tp := totalPages filtered.length st.pageSize
  let currentPage : Int := min st.page (tp : Int)
  let paged := jsSlice filtered ((currentPage - 1) * (st.pageSize : Int))
    (currentPage * (st.pageSize : Int))
  { podcasts := paged
    totalPages := tp
    currentPage := currentPage
    allPodcastsCount := filtered.length }

/-- The label `GenreTags.jsx` renders for one genre id:
`genreMap.find((genre) => genre.id === id)`, the matched title when found,
the string `Unknown (<id>)` otherwise. -/
def genreLabel (genreMap : List Genre) (gid : Int) : String :=
  match genreMap.find? (fun g => g.id == gid) with
  | some g => g.title
  | none => "Unknown (" ++ toString gid ++ ")"

/-- `GenreTags` body: one label per id of the show's genre list. -/
def genreTags (genreMap : List Genre) (genres : List Int) : List String :=
  genres.map (genreLabel genreMap)

/-- The season read of `PodcastDetail.jsx`:
`const season = podcast.seasons[selectedSeasonIndex]` with
`selectedSeasonIndex` a `useState(0)` hook. A `none` result models the
JavaScript value `undefined`, on which the subsequent `season.image` /
`season.episodes` accesses throw a `TypeError`; no re-clamping of the index
happens anywhere in the component. -/
def seasonLookup (seasons : List Season) (selectedSeasonIndex : Nat) : Option Season :=
  seasons.get? selectedSeasonIndex

/-- The predicate of the specification for the search step: the title
contains the search text as a case-insensitive substring. -/
def containsCaseInsensitive (title s : String) : Prop :=
  (jsToLower s).data <:+: (jsToLower title).data

/-- C5: for every viewport width `w`, the recomputed page size is `10` when
`w ≤ 1024` and `floor(w / 260) * 2` otherwise; concretely width `1024` gives
`10`, width `1025` gives `6`, and width `1560` gives `12`. -/
theorem calculatePageSize_spec :
    (∀ w : Nat, calculatePageSize w = if w ≤ 1024 then 10 else (w / 260) * 2)
  ∧ calculatePageSize 1024 = 10
  ∧ calculatePageSize 1025 = 6
  ∧ calculatePageSize 1560 = 12 :=
  ⟨fun _ => rfl, by decide, by decide, by decide⟩

/-- C4: for every engine state, changing the search text, the genre filter,
or the sort key resets the requested page to `1`, while the viewport-resize
page-size recomputation leaves the requested page (and every other query
parameter) unchanged. -/
theorem page_reset_spec :
    ∀ (st : EngineState) (text key g : String) (w : Nat),
      (setSearch text st).page = 1
    ∧ (setSortKey key st).page = 1
    ∧ (setGenre g st).page = 1
    ∧ (handleResize w st).page = st.page
    ∧ (handleResize w st).pageSize = calculatePageSize w
    ∧ (handleResize w st).search = st.search
    ∧ (handleResize w st).sortKey = st.sortKey
    ∧ (handleResize w st).genre = st.genre
    ∧ (handleResize w st).allPodcasts = st.allPodcasts :=
  fun _ _ _ _ _ => ⟨rfl, rfl, rfl, rfl, rfl, rfl, rfl, rfl, rfl⟩

/-- C9: a genre identifier with no matching entry in the genre table renders
as `Unknown (<id>)`, and rendering is total: every identifier of a show's
genre list produces exactly one tag. -/
theorem unknown_genre_label_spec :
    ∀ (genreMap : List Genre) (gid : Int),
      (∀ g ∈ genreMap, g.id ≠ gid) →
      genreLabel genreMap gid = "Unknown (" ++ toString gid ++ ")"
    ∧ ∀ ids : List Int, (genreTags genreMap ids).length = ids.length := by
  intro gm gid h
  constructor
  · unfold genreLabel
    have hnone : gm.find? (fun g => g.id == gid) = none := by
      rw [List.find?_eq_none]
      intro g hg
      simpa using h g hg
    rw [hnone]
  · intro ids
    simp [genreTags]

/-- Witness for the unknown-genre theorem at the one-entry table
`[{ id := 1, title := "Comedy" }]` and the unmatched identifier `99`. -/
theorem unknown_genre_label_spec_witness :
    (∀ g ∈ [({ id := 1, title := "Comedy" } : Genre)], g.id ≠ 99)
  ∧ genreLabel [({ id := 1, title := "Comedy" } : Genre)] 99
      = "Unknown (" ++ toString (99 : Int) ++ ")" := by
  have h : ∀ g ∈ [({ id := 1, title := "Comedy" } : Genre)], g.id ≠ 99 := by
    decide
  exact ⟨h, (unknown_genre_label_spec _ 99 h).1⟩

/-- C2: the show-detail view stores a selected season index (default `0`)
and reads `podcast.seasons[selectedSeasonIndex]` without any re-clamping:
with an empty season list the default index already misses (the read yields
`undefined`, modelled `none`, and the render then throws), and a stored
index beyond a short list misses as well. -/
theorem season_access_not_reclamped :
    seasonLookup ([] : List Season) 0 = none
  ∧ seasonLookup
      [{ title := "Season 1", description := "", image := "", episodes := [] }]
      3 = none :=
  ⟨rfl, rfl⟩

/-- C1 counterexample: with the initial engine and requested page `0` (which
`setPage` stores verbatim), the derived `currentPage` equals
`min(0, totalPages) = 0`, which is outside `[1, totalPages]`. -/
theorem currentPage_not_lower_clamped :
    ¬ 1 ≤ (deriveView (setPage 0 initialEngine)).currentPage := by
  intro h
  have h0 : (deriveView (setPage 0 initialEngine)).currentPage ≤ 0 :=
    min_le_left _ _
  omega

/-- C1 (amended): the derivation clamps the requested page only from above:
`currentPage = min(requestedPage, totalPages)` never exceeds `totalPages`,
lies in `[1, totalPages]` whenever the requested page is at least `1`, and
equals the requested page verbatim when that page is below `1`; `setPage`
itself stores any input without rejection. -/
theorem currentPage_clamping_spec :
    ∀ st : EngineState,
      (deriveView st).currentPage ≤ ((deriveView st).totalPages : Int)
    ∧ 1 ≤ ((deriveView st).totalPages : Int)
    ∧ (1 ≤ st.page → 1 ≤ (deriveView st).currentPage)
    ∧ (st.page < 1 → (deriveView st).currentPage = st.page)
    ∧ ∀ n, (setPage n st).page = n := by
  intro st
  have htp : 1 ≤ totalPages (applyFilters st).length st.pageSize :=
    le_max_left _ _
  have htp' : (1 : Int) ≤ (totalPages (applyFilters st).length st.pageSize : Int) := by
    exact_mod_cast htp
  refine ⟨min_le_right _ _, htp', ?_, ?_, fun _ => rfl⟩
  · intro h
    exact le_min h htp'
  · intro h
    exact min_eq_left (le_trans (le_of_lt h) htp')

/-- Witness for the clamping theorem at the initial engine, whose requested
page is `1`. -/
theorem currentPage_clamping_spec_witness :
    1 ≤ initialEngine.page ∧ 1 ≤ (deriveView initialEngine).currentPage :=
  ⟨by decide, (currentPage_clamping_spec initialEngine).2.2.1 (by decide)⟩

/-- The natural-valued ceiling of an exact quotient of naturals agrees with
the rounded-up natural division `(c + p - 1) / p`. -/
theorem natCeil_div_eq (c p : Nat) (hp : 0 < p) :
    Nat.ceil ((c : ℚ) / (p : ℚ)) = (c + p - 1) / p := by
  rcases Nat.eq_zero_or_pos c with hc | hc
  · subst hc
    simp only [Nat.cast_zero, zero_div, Nat.ceil_zero, Nat.zero_add]
    symm
    apply Nat.div_eq_of_lt
    omega
  · set k := (c + p - 1) / p with hk
    have hk0 : k ≠ 0 := by
      have hle : p ≤ c + p - 1 := by omega
      have h1 := (Nat.one_le_div_iff hp).mpr hle
      omega
    have hdiv1 : (c + p - 1) / p < k + 1 := by
      rw [← hk]
      exact Nat.lt_succ_self k
    have hub : c + p - 1 < (k + 1) * p := (Nat.div_lt_iff_lt_mul hp).mp hdiv1
    have hlb : k * p ≤ c + p - 1 := (Nat.le_div_iff_mul_le hp).mp (le_of_eq hk)
    have hub' : c ≤ k * p := by
      have hexp : (k + 1) * p = k * p + p := by ring
      rw [hexp] at hub
      generalize k * p = m at hub ⊢
      omega
    have hlb' : (k - 1) * p < c := by
      have hexp : (k - 1) * p = k * p - 1 * p := Nat.sub_mul k 1 p
      rw [one_mul] at hexp
      rw [hexp]
      generalize k * p = m at hlb ⊢
      omega
    rw [Nat.ceil_eq_iff hk0]
    have hp' : (0 : ℚ) < (p : ℚ) := by exact_mod_cast hp
    constructor
    · rw [lt_div_iff₀ hp']
      exact_mod_cast hlb'
    · rw [div_le_iff₀ hp']
      exact_mod_cast hub'

/-- C3: for every non-negative filtered count and positive page size, the
derived page count is `max(1, ceil(filteredCount / pageSize))`, which equals
the rounded-up natural division, is always at least `1`, and is exactly `1`
for an empty filtered set; the derived view reads its `totalPages` from this
very formula. -/
theorem totalPages_spec :
    ∀ (filteredCount pageSize : Nat), 0 < pageSize →
      totalPages filteredCount pageSize
        = max 1 ((filteredCount + pageSize - 1) / pageSize)
    ∧ 1 ≤ totalPages filteredCount pageSize
    ∧ totalPages 0 pageSize = 1
    ∧ ∀ st : EngineState,
        (deriveView st).totalPages = totalPages (applyFilters st).length st.pageSize := by
  intro c p hp
  refine ⟨?_, le_max_left _ _, ?_, fun _ => rfl⟩
  · unfold totalPages
    rw [natCeil_div_eq c p hp]
  · unfold totalPages
    rw [natCeil_div_eq 0 p hp]
    have h0 : (0 + p - 1) / p = 0 := Nat.div_eq_of_lt (by omega)
    rw [h0]
    rfl

/-- Witness for the page-count theorem at filtered count `25` and page size
`10`, where three pages result. -/
theorem totalPages_spec_witness :
    0 < 10
  ∧ (totalPages 25 10 = max 1 ((25 + 10 - 1) / 10)
      ∧ 1 ≤ totalPages 25 10
      ∧ totalPages 0 10 = 1
      ∧ ∀ st : EngineState,
          (deriveView st).totalPages = totalPages (applyFilters st).length st.pageSize) :=
  ⟨by decide, totalPages_spec 25 10 (by decide)⟩

/-- C6: the search step keeps exactly the shows whose title contains the
search text as a case-insensitive substring, and an empty or whitespace-only
search text leaves the dataset unchanged. -/
theorem search_filter_spec :
    ∀ (d : List PodShow) (s : String),
      (jsTrim s = "" → searchFilter s d = d)
    ∧ (jsTrim s ≠ "" →
        ∀ p, p ∈ searchFilter s d ↔ p ∈ d ∧ containsCaseInsensitive p.title s) := by
  intro d s
  constructor
  · intro h
    unfold searchFilter
    rw [if_neg (by simp [h])]
  · intro h p
    unfold searchFilter
    rw [if_pos h]
    simp only [List.mem_filter, jsIncludes, decide_eq_true_eq, containsCaseInsensitive]

/-- A sample catalog entry for concrete instantiations. -/
def showA : PodShow :=
  { id := 1, title := "Hello World", image := "", updated := 100,
    genres := [1], seasons := 1 }

/-- A second sample catalog entry for concrete instantiations. -/
def showB : PodShow :=
  { id := 2, title := "All About Tech", image := "", updated := 200,
    genres := [2], seasons := 2 }

/-- Witness for the search-filter theorem: a whitespace-only search leaves the
dataset alone, and a non-trivial search is characterised by case-insensitive
containment. -/
theorem search_filter_spec_witness :
    (jsTrim " " = "" ∧ searchFilter " " [showA] = [showA])
  ∧ (jsTrim "LO W" ≠ ""
      ∧ (showA ∈ searchFilter "LO W" [showA]
          ↔ showA ∈ [showA] ∧ containsCaseInsensitive showA.title "LO W")) :=
  ⟨⟨by decide, (search_filter_spec [showA] " ").1 (by decide)⟩,
   ⟨by decide, (search_filter_spec [showA] "LO W").2 (by decide) showA⟩⟩

/-- Inserting a show into a list with the `date-desc` preorder passes only
strictly newer shows, so the sublist of shows carrying any fixed timestamp
gains the inserted show at its front exactly when the show carries that
timestamp. -/
theorem dateDesc_filter_orderedInsert (t : Int) (x : PodShow) (l : List PodShow) :
    (List.orderedInsert (fun a b => dateDescComp a b ≤ 0) x l).filter
        (fun y => y.updated == t)
      = if x.updated == t
        then x :: l.filter (fun y => y.updated == t)
        else l.filter (fun y => y.updated == t) := by
  induction l with
  | nil =>
      simp only [List.orderedInsert, List.filter_cons, List.filter_nil]
  | cons y ys ih =>
      by_cases hr : dateDescComp x y ≤ 0
      · simp only [List.orderedInsert, if_pos hr, List.filter_cons]
      · have hgt : x.updated < y.updated := by
          unfold dateDescComp at hr
          omega
        simp only [List.orderedInsert, if_neg hr, List.filter_cons, ih]
        by_cases hx : (x.updated == t) = true
        · have hxe : x.updated = t := by simpa using hx
          have hy : ¬((y.updated == t) = true) := by
            simp only [beq_iff_eq]
            omega
          simp [hx, hy]
        · simp [hx]

/-- The `date-desc` sort leaves the sublist of shows carrying any fixed
timestamp unchanged: the stable sort never swaps ties. -/
theorem dateDesc_filter_jsSort (t : Int) (l : List PodShow) :
    (jsSort dateDescComp l).filter (fun y => y.updated == t)
      = l.filter (fun y => y.updated == t) := by
  induction l with
  | nil => rfl
  | cons x xs ih =>
      simp only [jsSort, List.insertionSort] at ih ⊢
      rw [dateDesc_filter_orderedInsert, ih, List.filter_cons]

/-- The `date-desc` sort orders shows by last-updated timestamp
descending. -/
theorem sorted_jsSort_dateDesc (l : List PodShow) :
    List.Sorted (fun a b : PodShow => b.updated ≤ a.updated)
      (jsSort dateDescComp l) := by
  haveI : IsTotal PodShow (fun a b => dateDescComp a b ≤ 0) :=
    ⟨fun a b => by unfold dateDescComp; omega⟩
  haveI : IsTrans PodShow (fun a b => dateDescComp a b ≤ 0) :=
    ⟨fun a b c h1 h2 => by
      unfold dateDescComp at h1 h2 ⊢
      omega⟩
  have h := List.sorted_insertionSort (fun a b : PodShow => dateDescComp a b ≤ 0) l
  exact List.Pairwise.imp (fun hab => by unfold dateDescComp at hab; omega) h

/-- C7: sorting by the `date-desc` key orders shows by last-updated
timestamp descending, and the sort is stable: for every input list and every
timestamp, the shows carrying that timestamp appear in the output in their
pre-sort relative order. -/
theorem date_desc_sort_spec :
    ∀ l : List PodShow,
      List.Sorted (fun a b : PodShow => b.updated ≤ a.updated)
        (sortStep "date-desc" l)
    ∧ ∀ t : Int,
        (sortStep "date-desc" l).filter (fun y => y.updated == t)
          = l.filter (fun y => y.updated == t) := by
  intro l
  have hstep : sortStep "date-desc" l = jsSort dateDescComp l := rfl
  rw [hstep]
  exact ⟨sorted_jsSort_dateDesc l, fun t => dateDesc_filter_jsSort t l⟩

/-- C10: the engine's initial sort key is `date-desc` (not `default`), so
before any interaction the derived order of any fetched dataset is the
`date-desc` sort — ordered by last-updated timestamp descending — rather
than the raw dataset order. -/
theorem initial_sort_key_spec :
    initialEngine.sortKey = "date-desc"
  ∧ initialEngine.sortKey ≠ "default"
  ∧ (∀ d : List PodShow,
      applyFilters (setDataset d initialEngine) = jsSort dateDescComp d)
  ∧ (∀ d : List PodShow,
      List.Sorted (fun a b : PodShow => b.updated ≤ a.updated)
        (applyFilters (setDataset d initialEngine))) := by
  refine ⟨rfl, by decide, fun _ => rfl, fun d => ?_⟩
  have h : applyFilters (setDataset d initialEngine) = jsSort dateDescComp d := rfl
  rw [h]
  exact sorted_jsSort_dateDesc d

/-- The comparator model of `localeCompare` is non-positive exactly when the
first string is lexicographically at most the second. -/
theorem strCompare_le_iff (a b : String) :
    strCompare a b ≤ 0 ↔ a.data ≤ b.data := by
  unfold strCompare
  split_ifs with h1 h2
  · exact iff_of_true (by norm_num) (le_of_lt h1)
  · exact iff_of_false (by norm_num) (not_le.mpr h2)
  · exact iff_of_true le_rfl (le_of_not_lt h2)

/-- C8: on a list whose titles are pairwise distinct, sorting with the
`title-desc` comparator yields exactly the reverse of sorting with the
`title-asc` comparator. -/
theorem title_sort_reverse_spec :
    ∀ l : List PodShow,
      l.Pairwise (fun a b => a.title ≠ b.title) →
      jsSort titleDescComp l = (jsSort titleAscComp l).reverse := by
  intro l hd
  have hsymm : ∀ {x y : PodShow}, x.title ≠ y.title → y.title ≠ x.title :=
    fun h => Ne.symm h
  haveI : IsTotal PodShow (fun a b => titleAscComp a b ≤ 0) :=
    ⟨fun a b => by
      simp only [titleAscComp, strCompare_le_iff]
      exact le_total _ _⟩
  haveI : IsTrans PodShow (fun a b => titleAscComp a b ≤ 0) :=
    ⟨fun a b c h1 h2 => by
      simp only [titleAscComp, strCompare_le_iff] at h1 h2 ⊢
      exact le_trans h1 h2⟩
  haveI : IsTotal PodShow (fun a b => titleDescComp a b ≤ 0) :=
    ⟨fun a b => by
      simp only [titleDescComp, strCompare_le_iff]
      exact (le_total _ _).symm⟩
  haveI : IsTrans PodShow (fun a b => titleDescComp a b ≤ 0) :=
    ⟨fun a b c h1 h2 => by
      simp only [titleDescComp, strCompare_le_iff] at h1 h2 ⊢
      exact le_trans h2 h1⟩
  have hsA : List.Sorted (fun a b => titleAscComp a b ≤ 0) (jsSort titleAscComp l) :=
    List.sorted_insertionSort _ l
  have hsD : List.Sorted (fun a b => titleDescComp a b ≤ 0) (jsSort titleDescComp l) :=
    List.sorted_insertionSort _ l
  have pA : (jsSort titleAscComp l).Perm l := List.perm_insertionSort _ l
  have pD : (jsSort titleDescComp l).Perm l := List.perm_insertionSort _ l
  have pR : ((jsSort titleAscComp l).reverse).Perm l :=
    (List.reverse_perm _).trans pA
  have pDR : (jsSort titleDescComp l).Perm ((jsSort titleAscComp l).reverse) :=
    pD.trans pR.symm
  have hdD : (jsSort titleDescComp l).Pairwise (fun a b => a.title ≠ b.title) :=
    (pD.pairwise_iff hsymm).mpr hd
  have hdA : (jsSort titleAscComp l).Pairwise (fun a b => a.title ≠ b.title) :=
    (pA.pairwise_iff hsymm).mpr hd
  have hsD' : List.Sorted (fun a b : PodShow => b.title.data < a.title.data)
      (jsSort titleDescComp l) := by
    refine List.Pairwise.imp ?_ (List.Pairwise.and hsD hdD)
    intro a b hab
    have h1 : b.title.data ≤ a.title.data := by
      have h := hab.1
      unfold titleDescComp at h
      exact (strCompare_le_iff _ _).mp h
    have h2 : b.title.data ≠ a.title.data :=
      fun he => hab.2 (String.toList_inj.mp he).symm
    exact lt_of_le_of_ne h1 h2
  have hsR : List.Sorted (fun a b : PodShow => b.title.data < a.title.data)
      ((jsSort titleAscComp l).reverse) := by
    refine List.pairwise_reverse.mpr ?_
    refine List.Pairwise.imp ?_ (List.Pairwise.and hsA hdA)
    intro a b hab
    have h1 : a.title.data ≤ b.title.data := by
      have h := hab.1
      unfold titleAscComp at h
      exact (strCompare_le_iff _ _).mp h
    have h2 : a.title.data ≠ b.title.data :=
      fun he => hab.2 (String.toList_inj.mp he)
    exact lt_of_le_of_ne h1 h2
  haveI : IsAntisymm PodShow (fun a b : PodShow => b.title.data < a.title.data) :=
    ⟨fun a b h1 h2 => absurd (lt_trans h1 h2) (lt_irrefl _)⟩
  exact List.eq_of_perm_of_sorted pDR hsD' hsR

/-- Witness for the reversal theorem at two shows with distinct titles. -/
theorem title_sort_reverse_spec_witness :
    ([showA, showB].Pairwise (fun a b : PodShow => a.title ≠ b.title))
  ∧ jsSort titleDescComp [showA, showB]
      = (jsSort titleAscComp [showA, showB]).reverse := by
  have h : [showA, showB].Pairwise (fun a b : PodShow => a.title ≠ b.title) := by
    decide
  exact ⟨h, title_sort_reverse_spec [showA, showB] h⟩
